import Mathlib

/-!
Shallow embedding of the invoice extraction-and-reconciliation core
(`src/main.py`) and verification of its specification claims.

Modelling conventions:
* Python strings are Lean `String` / `List Char`; only ASCII behaviour is
  modelled (the inputs handled by the program are ASCII invoice text).
* Python floats are modelled as exact rationals (`ℚ`); decimal literals in
  both the code and the spec denote the same decimal value, so equalities
  between values parsed from the same decimal strings are preserved.
* Python regular expressions are embedded as hand-written backtracking
  matchers that mirror `re.search` semantics (leftmost start, greedy or
  lazy quantifiers with backtracking, alternation tried left to right)
  for the exact patterns appearing in the source.
* External collaborators (Camelot table detection, PyPDF2 text extraction,
  EasyOCR) are modelled by their observable results: a value or a raised
  exception (`Except`).
* Fallible Python operations (`int(...)`, `float(...)`) are modelled as
  `Option`-returning functions restricted to finite decimal literals.
-/

namespace InvoiceParser

/-! ### Character classes (ASCII models of the `re` classes in the source) -/

/-- Python `\s` (ASCII): space, tab, newline, carriage return, form feed,
vertical tab. -/
def wsChar (c : Char) : Bool :=
  c == ' ' || c == '\t' || c == '\n' || c == '\r' || c == '\x0b' || c == '\x0c'

/-- Python `\d` (ASCII). -/
def digitChar (c : Char) : Bool := c.isDigit

/-- Python `\w` (ASCII): letters, digits, underscore. -/
def wordChar (c : Char) : Bool := c.isAlphanum || c == '_'

/-- The class `[:;\s]` used after field labels in the source patterns. -/
def sepChar (c : Char) : Bool := c == ':' || c == ';' || wsChar c

/-- The class `[\d,\.]` (also written `[\d.,]`) of numeric-token characters. -/
def numChar (c : Char) : Bool := digitChar c || c == ',' || c == '.'

/-- The class `[\w\d\-\[\]]` of pattern-A product-code characters. -/
def codeCharA (c : Char) : Bool := wordChar c || c == '-' || c == '[' || c == ']'

/-- The class `[\w\d-]` of pattern-B product-code characters. -/
def codeCharB (c : Char) : Bool := wordChar c || c == '-'

/-- The class `[A-Za-z0-9 /_-]` of pattern-B description characters. -/
def descChar (c : Char) : Bool :=
  c.isAlpha || c.isDigit || c == ' ' || c == '/' || c == '_' || c == '-'

/-- The class `[A-Z\s]` of the supplier pattern. -/
def upWsChar (c : Char) : Bool := ('A' ≤ c && c ≤ 'Z') || wsChar c

/-! ### Small matching combinators

These realise the pieces of Python `re` behaviour the source patterns use:
case-insensitive literals, greedy character-class runs (`+`/`*`), and
backtracking over quantifier lengths (longest-first for greedy, shortest-first
for lazy quantifiers) and over alternatives (left to right). -/

/-- Left-biased choice on `Option` (regex alternation / optional part). -/
def orE (a b : Option α) : Option α :=
  match a with
  | some x => some x
  | none => b

/-- Sequencing of matching steps (`Option` bind, named so that proofs can
reason about the chains). -/
def obind (a : Option α) (f : α → Option β) : Option β :=
  match a with
  | some x => f x
  | none => none

/-- Try `k n, k (n-1), …, k lo` in order (greedy quantifier backtracking). -/
def tryDescend (k : Nat → Option α) (lo : Nat) : Nat → Option α
  | 0 => if lo = 0 then k 0 else none
  | n + 1 => if n + 1 < lo then none else orE (k (n + 1)) (tryDescend k lo n)

/-- Try `k start, k (start+1), …, k (start+fuel)` in order (lazy quantifier). -/
def tryAscend (k : Nat → Option α) (start : Nat) : Nat → Option α
  | 0 => k start
  | fuel + 1 => orE (k start) (tryAscend k (start + 1) fuel)

/-- Match a literal case-insensitively (the source patterns carry
`re.IGNORECASE`); returns the remaining input. -/
def litCI : List Char → List Char → Option (List Char)
  | [], s => some s
  | _ :: _, [] => none
  | p :: pt, c :: ct => if c.toLower == p.toLower then litCI pt ct else none

/-- Match a literal case-sensitively; returns the remaining input. -/
def litCS : List Char → List Char → Option (List Char)
  | [], s => some s
  | _ :: _, [] => none
  | p :: pt, c :: ct => if c == p then litCS pt ct else none

/-- Match one character of a class (`X?` on a single-character class where
the failure case must fall back to not consuming). -/
def oneOf (p : Char → Bool) : List Char → Option (List Char)
  | [] => none
  | c :: rest => if p c then some rest else none

/-- Greedy `cls*` whose follower is disjoint from `cls`: the maximal run is
the only viable choice, so no backtracking is needed. -/
def skipCls (p : Char → Bool) (s : List Char) : List Char := s.dropWhile p

/-- Greedy `cls+` whose follower is disjoint from `cls`: take the maximal
run, failing when it is empty.  Returns the run and the rest. -/
def plusCls (p : Char → Bool) (s : List Char) : Option (List Char × List Char) :=
  let r := s.takeWhile p
  if r.isEmpty then none else some (r, s.dropWhile p)

/-- `\$?` directly before a numeric class: `$` is not in the class, so the
optional dollar is consumed exactly when present. -/
def optDollar : List Char → List Char
  | '$' :: rest => rest
  | s => s

/-! ### Python string helpers used by the source -/

/-- `str.strip()` on a character list. -/
def pyStripL (l : List Char) : List Char :=
  ((l.dropWhile wsChar).reverse.dropWhile wsChar).reverse

/-- `str.strip()` -/
def pyStrip (s : String) : String := String.mk (pyStripL s.data)

/-- `str.strip(chars)` with an explicit strip set. -/
def stripCharsL (cs : List Char) (l : List Char) : List Char :=
  ((l.dropWhile (cs.contains ·)).reverse.dropWhile (cs.contains ·)).reverse

/-- Split on `'\n'`, keeping empty segments (Python `str.split('\n')`). -/
def splitNlL : List Char → List (List Char)
  | [] => [[]]
  | '\n' :: rest => [] :: splitNlL rest
  | c :: rest =>
    match splitNlL rest with
    | [] => [[c]]
    | h :: t => (c :: h) :: t

/-- Python `str.splitlines()` restricted to `'\n'` line breaks: like
`split('\n')` but without a trailing empty segment. -/
def splitlines (s : String) : List String :=
  let parts := splitNlL s.data
  let parts := if parts.getLast? = some [] then parts.dropLast else parts
  parts.map String.mk

/-- Concatenation of segments (Python `"".join`). -/
def joinL : List (List Char) → List Char
  | [] => []
  | h :: t => h ++ joinL t

/-! ### Python numeric conversions

`int(...)` and `float(...)` are library builtins; they are modelled here on
the string shapes the program can feed them: optional sign and decimal
digits (with the Python 3 rule of single underscores between digits) for `int`,
and finite decimal literals with an optional exponent for `float`
(`inf`/`nan` spellings are outside the model). -/

/-- Digit-list value. -/
def digitsToNat (l : List Char) : Nat :=
  l.foldl (fun n c => n * 10 + (c.toNat - 48)) 0

/-- Digits with single underscores allowed between digits, as accepted by
`int` after the optional sign. -/
def intDigitsGo (acc : Nat) (prevUnd : Bool) : List Char → Option Nat
  | [] => if prevUnd then none else some acc
  | c :: rest =>
    if digitChar c then intDigitsGo (acc * 10 + (c.toNat - 48)) false rest
    else if c == '_' then
      (if prevUnd then none else intDigitsGo acc true rest)
    else none

/-- The digit part of `int(...)`: nonempty digits, underscores only between
digits. -/
def intDigits : List Char → Option Nat
  | [] => none
  | c :: rest => if digitChar c then intDigitsGo (c.toNat - 48) false rest else none

/-- Python `int(str)`: strip whitespace, optional sign, digits. `none` models
`ValueError`. -/
def parseIntPyL (l : List Char) : Option Int :=
  match pyStripL l with
  | [] => none
  | c :: r =>
    if c == '+' then (intDigits r).map Int.ofNat
    else if c == '-' then (intDigits r).map (fun n => -(n : Int))
    else (intDigits (c :: r)).map Int.ofNat

/-- Fractional value of a digit run appearing after the decimal point. -/
def fracVal (l : List Char) : ℚ :=
  (digitsToNat l : ℚ) / ((10 : ℚ) ^ l.length)

/-- The mantissa of a float literal: `digits [. digits*]` or `. digits+`.
Returns the value and the unconsumed rest. -/
def floatMantissa : List Char → Option (ℚ × List Char)
  | [] => none
  | '.' :: r =>
    let fs := r.takeWhile digitChar
    if fs.isEmpty then none else some (fracVal fs, r.dropWhile digitChar)
  | s =>
    let ip := s.takeWhile digitChar
    if ip.isEmpty then none
    else
      match s.dropWhile digitChar with
      | '.' :: r2 =>
        some ((digitsToNat ip : ℚ) + fracVal (r2.takeWhile digitChar),
              r2.dropWhile digitChar)
      | r => some ((digitsToNat ip : ℚ), r)

/-- The exponent part after `e`/`E`: optional sign then digits, consuming
the whole rest. Returns (negative?, magnitude). -/
def floatExpPart : List Char → Option (Bool × Nat)
  | '+' :: r => if !r.isEmpty && r.all digitChar then some (false, digitsToNat r) else none
  | '-' :: r => if !r.isEmpty && r.all digitChar then some (true, digitsToNat r) else none
  | r => if !r.isEmpty && r.all digitChar then some (false, digitsToNat r) else none

/-- Apply a decimal exponent. -/
def applyExp (m : ℚ) (neg : Bool) (e : Nat) : ℚ :=
  if neg then m / ((10 : ℚ) ^ e) else m * ((10 : ℚ) ^ e)

/-- Python `float(str)` on finite decimal literals. `none` models
`ValueError`. -/
def parseFloatL (s : List Char) : Option ℚ :=
  let signAndRest : Bool × List Char :=
    match s with
    | '+' :: r => (false, r)
    | '-' :: r => (true, r)
    | r => (false, r)
  match floatMantissa signAndRest.2 with
  | none => none
  | some (m, rest) =>
    let fin : Option ℚ :=
      match rest with
      | [] => some m
      | e :: r2 =>
        if e == 'e' || e == 'E' then
          match floatExpPart r2 with
          | some (neg, ex) => some (applyExp m neg ex)
          | none => none
        else none
    match fin with
    | some v => some (if signAndRest.1 then -v else v)
    | none => none

/-! ### `fix_float`: the numeric normalizer (source lines 119–143) -/

/-- The cleanup pipeline of `fix_float`, mirroring the source step by step:
strip; remove `S` and `_`; `'.,' -> '.'`; `',' -> '.'`; merge of multiple
dots (all but the last are thousands separators); collapse of dot runs
(`re.sub(r'\.\.+', '.', ...)`); removal of spaces; empty becomes `"0"`. -/
def replDotComma : List Char → List Char
  | '.' :: ',' :: rest => '.' :: replDotComma rest
  | c :: rest => c :: replDotComma rest
  | [] => []

/-- `re.sub(r'\.\.+', '.', raw)`: every maximal run of two or more dots is
replaced by a single dot (the flag records whether the previous character
was a dot of a run being collapsed). -/
def squashDotsAux : Bool → List Char → List Char
  | _, [] => []
  | prevDot, c :: rest =>
    if c == '.' then
      if prevDot then squashDotsAux true rest
      else '.' :: squashDotsAux true rest
    else c :: squashDotsAux false rest

/-- Python `raw.split('.')`. -/
def splitDotsL : List Char → List (List Char)
  | [] => [[]]
  | '.' :: rest => [] :: splitDotsL rest
  | c :: rest =>
    match splitDotsL rest with
    | [] => [[c]]
    | h :: t => (c :: h) :: t

/-- The cleaned token handed to `float(...)` by `fix_float`. -/
def fixFloatClean (l : List Char) : List Char :=
  let raw := pyStripL l
  let raw := raw.filter (fun c => !(c == 'S'))
  let raw := raw.filter (fun c => !(c == '_'))
  let raw := replDotComma raw
  let raw := raw.map (fun c => if c == ',' then '.' else c)
  let parts := splitDotsL raw
  let raw :=
    if parts.length > 2 then
      parts.headD [] ++ joinL ((parts.drop 1).dropLast) ++ ('.' :: parts.getLastD [])
    else raw
  let raw := squashDotsAux false raw
  let raw := raw.filter (fun c => !(c == ' '))
  if raw.isEmpty then ['0'] else raw

/-- `fix_float` on a character list: parse the cleaned token; a parse
failure (the bare `except` of the source) yields `0.0`. -/
def fixFloatL (l : List Char) : ℚ :=
  match parseFloatL (fixFloatClean l) with
  | some q => q
  | none => 0

/-- Source `fix_float(value: str) -> float`. -/
def fix_float (value : String) : ℚ := fixFloatL value.data

/-! ### `cleanup_line` (source lines 112–117)

Two sequential case-insensitive `re.sub`s repairing letter-spaced labels:
`P\s*r\s*i\s*c\s*e\s*:` → `Price:` and `Q\s*ty\s*:` → `Qty:`.  Each scan
is left to right and non-overlapping, and replacements are not rescanned. -/

/-- Match `P\s*r\s*i\s*c\s*e\s*:` (case-insensitively) at the head of the
input; every `\s*` is followed by a non-whitespace literal, so maximal runs
are the only viable choices. -/
def priceLblAt (s : List Char) : Option (List Char) :=
  obind (litCI (('p') :: []) s) fun r1 =>
  obind (litCI (('r') :: []) (skipCls wsChar r1)) fun r2 =>
  obind (litCI (('i') :: []) (skipCls wsChar r2)) fun r3 =>
  obind (litCI (('c') :: []) (skipCls wsChar r3)) fun r4 =>
  obind (litCI (('e') :: []) (skipCls wsChar r4)) fun r5 =>
  litCS ((':') :: []) (skipCls wsChar r5)

/-- Match `Q\s*ty\s*:` (case-insensitively) at the head of the input. -/
def qtyLblAt (s : List Char) : Option (List Char) :=
  obind (litCI (('q') :: []) s) fun r1 =>
  obind (litCI (('t') :: ('y') :: []) (skipCls wsChar r1)) fun r2 =>
  litCS ((':') :: []) (skipCls wsChar r2)

/-- One `re.sub` scan for a label matcher; the fuel is the input length
(every step consumes at least one character). -/
def substLbl (lblAt : List Char → Option (List Char)) (repl : List Char) :
    Nat → List Char → List Char
  | 0, s => s
  | _ + 1, [] => []
  | fuel + 1, c :: rest =>
    match lblAt (c :: rest) with
    | some r => repl ++ substLbl lblAt repl fuel r
    | none => c :: substLbl lblAt repl fuel rest

/-- Source `cleanup_line`. -/
def cleanup_line (line : String) : String :=
  let l1 := substLbl priceLblAt (("Price:").data) line.data.length line.data
  String.mk (substLbl qtyLblAt (("Qty:").data) l1.length l1)

/-! ### The three structured-line grammars (source lines 178–199)

Each matcher mirrors its `re` pattern.  `search` is realised by trying an
anchored match at every start position, left to right.  Quantifier
backtracking is required only where the character class of a quantifier is not
disjoint from what follows (noted inline); everywhere else the maximal run
is the unique viable choice. -/

/-- Captures of `PRODUCT_CODE_PATTERN_A`. -/
structure GroupsA where
  code : List Char
  qty : List Char
  up : List Char
  amt : List Char
deriving DecidableEq, Repr

/-- The part of pattern A after the quantity capture:
`(?:\s+units)?\s+Unit\s*Price[:;\s]*\$?([\d,\.]+)\s+Amount[:;\s]*\$?([\d,\.]+)`.
Returns the unit-price and amount captures. -/
def matchA_tail (s : List Char) : Option (List Char × List Char) :=
  obind (litCI (("unit").data) s) fun r1 =>
  obind (litCI (("price").data) (skipCls wsChar r1)) fun r2 =>
  obind (plusCls numChar (optDollar (skipCls sepChar r2))) fun up3 =>
  obind (plusCls wsChar up3.2) fun w4 =>
  obind (litCI (("amount").data) w4.2) fun r5 =>
  obind (plusCls numChar (optDollar (skipCls sepChar r5))) fun amt6 =>
  some (up3.1, amt6.1)

/-- Anchored match of `PRODUCT_CODE_PATTERN_A`.  The optional `(?:\s+units)?`
is the one backtracking point: the taken branch is preferred, and on failure
of anything after it the untaken branch is retried. -/
def matchA_at (s : List Char) : Option GroupsA :=
  obind (litCI (("product code").data) s) fun r1 =>
  obind (litCI (("prd-").data) (skipCls sepChar r1)) fun r3 =>
  obind (plusCls codeCharA r3) fun c4 =>
  obind (plusCls wsChar c4.2) fun w5 =>
  obind (litCI (("quantity").data) w5.2) fun r6 =>
  obind (plusCls digitChar (skipCls sepChar r6)) fun q7 =>
  obind (orE
      (obind (plusCls wsChar q7.2) fun w =>
       obind (litCI (("units").data) w.2) fun t =>
       obind (plusCls wsChar t) fun w2 =>
       matchA_tail w2.2)
      (obind (plusCls wsChar q7.2) fun w =>
       matchA_tail w.2)) fun ua =>
  some ⟨(skipCls sepChar r1).take 4 ++ c4.1, q7.1, ua.1, ua.2⟩

/-- `PRODUCT_CODE_PATTERN_A.search`: leftmost anchored match. -/
def matchA : List Char → Option GroupsA
  | [] => none
  | c :: rest => orE (matchA_at (c :: rest)) (matchA rest)

/-- Captures of `PRODUCT_CODE_PATTERN_B`. -/
structure GroupsB where
  code : List Char
  desc : List Char
  qty : List Char
  price : List Char
  total : List Char
  po : Option (List Char)
deriving DecidableEq, Repr

/-- The optional trailing `(?:\s+PO:\s+PO\s*-\s*(\d+))?` of pattern B. -/
def poSuffix (r : List Char) : Option (List Char) :=
  obind (plusCls wsChar r) fun w1 =>
  obind (litCI (("po:").data) w1.2) fun r2 =>
  obind (plusCls wsChar r2) fun w3 =>
  obind (litCI (("po").data) w3.2) fun r4 =>
  obind (litCS (('-') :: []) (skipCls wsChar r4)) fun r5 =>
  obind (plusCls digitChar (skipCls wsChar r5)) fun d6 =>
  some d6.1

/-- The part of pattern B after the description capture:
`\s+Qty[:;\s]*(\d+)\s+Price[:;\s]*\$?([\d.,]+)\s+Total[:;\s]*\$?([\d.,]+)`
followed by the optional PO suffix. -/
def matchB_tail (code desc : List Char) (r : List Char) : Option GroupsB :=
  obind (plusCls wsChar r) fun w1 =>
  obind (litCI (("qty").data) w1.2) fun r2 =>
  obind (plusCls digitChar (skipCls sepChar r2)) fun q3 =>
  obind (plusCls wsChar q3.2) fun w4 =>
  obind (litCI (("price").data) w4.2) fun r5 =>
  obind (plusCls numChar (optDollar (skipCls sepChar r5))) fun p6 =>
  obind (plusCls wsChar p6.2) fun w7 =>
  obind (litCI (("total").data) w7.2) fun r8 =>
  obind (plusCls numChar (optDollar (skipCls sepChar r8))) fun t9 =>
  some ⟨code, desc, q3.1, p6.1, t9.1, poSuffix t9.2⟩

/-- Anchored match of `PRODUCT_CODE_PATTERN_B`.  The `\s+` separator and the
greedy description class `[A-Za-z0-9 /_-]+` overlap (both contain the space),
so both quantifiers backtrack longest-first, outer first — exactly the
Python order. -/
def matchB_at (s : List Char) : Option GroupsB :=
  obind (litCI (("prd-").data) s) fun r1 =>
  obind (plusCls codeCharB r1) fun c2 =>
  tryDescend
    (fun nws =>
      tryDescend
        (fun nd => matchB_tail (s.take 4 ++ c2.1) ((c2.2.drop nws).take nd)
          ((c2.2.drop nws).drop nd))
        1 (((c2.2.drop nws).takeWhile descChar).length))
    1 ((c2.2.takeWhile wsChar).length)

/-- `PRODUCT_CODE_PATTERN_B.search`: leftmost anchored match. -/
def matchB : List Char → Option GroupsB
  | [] => none
  | c :: rest => orE (matchB_at (c :: rest)) (matchB rest)

/-- Captures of `SERVICE_PATTERN`. -/
structure GroupsS where
  name : List Char
  hours : List Char
  rate : List Char
  amt : List Char
deriving DecidableEq, Repr

/-- The part of the service pattern after the lazy name capture:
`\s+Hours[:;\s]*(\d+)\s*x\s*Rate[:;\s]*\$?([\d,\.]+)\s*/hr\s+Amount[:;\s]*\$?([\d,\.]+)`. -/
def serviceTail (g1 : List Char) (r : List Char) : Option GroupsS :=
  obind (plusCls wsChar r) fun w1 =>
  obind (litCI (("hours").data) w1.2) fun r2 =>
  obind (plusCls digitChar (skipCls sepChar r2)) fun h3 =>
  obind (litCI (('x') :: []) (skipCls wsChar h3.2)) fun r4 =>
  obind (litCI (("rate").data) (skipCls wsChar r4)) fun r5 =>
  obind (plusCls numChar (optDollar (skipCls sepChar r5))) fun ra6 =>
  obind (litCI (("/hr").data) (skipCls wsChar ra6.2)) fun r7 =>
  obind (plusCls wsChar r7) fun w8 =>
  obind (litCI (("amount").data) w8.2) fun r9 =>
  obind (plusCls numChar (optDollar (skipCls sepChar r9))) fun a10 =>
  some ⟨g1, h3.1, ra6.1, a10.1⟩

/-- `SERVICE_PATTERN.search`: the pattern starts with a lazy `(.*?)` under
`re.DOTALL`, so a match, if any, starts at position 0 with the shortest
shortest name capture — realised by trying name lengths 0, 1, … upward. -/
def matchService (s : List Char) : Option GroupsS :=
  tryAscend (fun n => serviceTail (s.take n) (s.drop n)) 0 s.length

/-! ### Records and the per-grammar record builders (source lines 277–343) -/

/-- A product record (the dict built by the pattern-A/B builders and the
table path; `description` and `po_number` are present only when set). -/
structure ProductRecord where
  product_code : String
  description : Option String := none
  quantity : Int
  unit_price : ℚ
  total_price : ℚ
  po_number : Option String := none
deriving DecidableEq, Repr

/-- A service record. -/
structure ServiceRecord where
  service_name : String
  hours : Int
  rate_per_hour : ℚ
  amount : ℚ
deriving DecidableEq, Repr

/-- Source `parse_pattern_a`: `int` failure (the `except ValueError` branch)
appends nothing; otherwise exactly one record is appended. -/
def parse_pattern_a (m : GroupsA) (products_list : List ProductRecord) :
    List ProductRecord :=
  match parseIntPyL m.qty with
  | some q =>
    products_list ++
      [{ product_code := String.mk m.code, quantity := q,
         unit_price := fixFloatL m.up, total_price := fixFloatL m.amt }]
  | none => products_list

/-- Source `parse_pattern_b`; the captured fields are `.strip()`ped and the
PO number is attached only when truthy. -/
def parse_pattern_b (m : GroupsB) (products_list : List ProductRecord) :
    List ProductRecord :=
  match parseIntPyL (pyStripL m.qty) with
  | some q =>
    products_list ++
      [{ product_code := String.mk (pyStripL m.code),
         description := some (String.mk (pyStripL m.desc)),
         quantity := q,
         unit_price := fixFloatL (pyStripL m.price),
         total_price := fixFloatL (pyStripL m.total),
         po_number :=
           match m.po with
           | some ds => if ds.isEmpty then none else some (String.mk ds)
           | none => none }]
  | none => products_list

/-- Source `parse_pattern_service`; the name is stripped of the characters
`:,.-`, space and newline (Python `strip` with an explicit set). -/
def parse_pattern_service (m : GroupsS) (services_list : List ServiceRecord) :
    List ServiceRecord :=
  match parseIntPyL (pyStripL m.hours) with
  | some h =>
    services_list ++
      [{ service_name := String.mk (stripCharsL ((":,.- ").data ++ [('\n')]) m.name),
         hours := h,
         rate_per_hour := fixFloatL (pyStripL m.rate),
         amount := fixFloatL (pyStripL m.amt) }]
  | none => services_list

/-- Source `try_match_line`: the three grammars in priority order A, B,
service; the first match appends its record; the mutated lists are threaded
explicitly. -/
def try_match_line (line : String) (products : List ProductRecord)
    (services : List ServiceRecord) :
    Bool × List ProductRecord × List ServiceRecord :=
  match matchA line.data with
  | some mA => (true, parse_pattern_a mA products, services)
  | none =>
    match matchB line.data with
    | some mB => (true, parse_pattern_b mB products, services)
    | none =>
      match matchService line.data with
      | some mS => (true, products, parse_pattern_service mS services)
      | none => (false, products, services)

/-- Whether any of the three grammars matches a line (the boolean outcome of
`try_match_line`, independent of the record lists). -/
def lineMatches (line : String) : Bool :=
  (matchA line.data).isSome || (matchB line.data).isSome ||
    (matchService line.data).isSome

/-! ### The line-item tokenizer (source lines 205–243) -/

/-- Source constant `MAX_LINE_MERGE = 6` (merge up to 6 lines in total). -/
def MAX_LINE_MERGE : Nat := 6

/-- Source constant `MIN_CHAR_THRESHOLD = 100`. -/
def MIN_CHAR_THRESHOLD : Nat := 100

/-- The merged string for a window of `mc` following lines:
`merged = line; for k in range(1, mc+1): merged += " " + lines[i+k].strip()`. -/
def buildMerged (lines : List String) (i : Nat) (line : String) (mc : Nat) :
    String :=
  (List.range mc).foldl
    (fun acc k => acc ++ (" ") ++ pyStrip (lines.getD (i + k + 1) (""))) line

/-- The inner merge loop of `extract_line_by_line_items`:
`for merge_count in range(1, MAX_LINE_MERGE)` with an early `break` when the
window would run past the end; returns the first matching width and the
updated record lists. Called with `mc = 1` and fuel `MAX_LINE_MERGE - 1`. -/
def tryMerges (lines : List String) (i : Nat) (line : String)
    (ps : List ProductRecord) (ss : List ServiceRecord) :
    Nat → Nat → Option (Nat × List ProductRecord × List ServiceRecord)
  | _, 0 => none
  | mc, fuel + 1 =>
    if i + mc < lines.length then
      match try_match_line (buildMerged lines i line mc) ps ss with
      | (true, ps2, ss2) => some (mc, ps2, ss2)
      | (false, _, _) => tryMerges lines i line ps ss (mc + 1) fuel
    else none

/-- The cursor loop of `extract_line_by_line_items`.  The cursor advances by
at least one per iteration, so fuel `lines.length` suffices. -/
def extractLoop (lines : List String) :
    Nat → Nat → List ProductRecord → List ServiceRecord →
    List ProductRecord × List ServiceRecord
  | _, 0, ps, ss => (ps, ss)
  | i, fuel + 1, ps, ss =>
    if i < lines.length then
      let line := pyStrip (lines.getD i (""))
      if line = ("") then extractLoop lines (i + 1) fuel ps ss
      else
        match try_match_line line ps ss with
        | (true, ps2, ss2) => extractLoop lines (i + 1) fuel ps2 ss2
        | (false, _, _) =>
          match tryMerges lines i line ps ss 1 (MAX_LINE_MERGE - 1) with
          | some (mc, ps2, ss2) => extractLoop lines (i + mc + 1) fuel ps2 ss2
          | none => extractLoop lines (i + 1) fuel ps ss
    else (ps, ss)

/-- Source `extract_line_by_line_items`. -/
def extract_line_by_line_items (extracted_text : String) :
    List ProductRecord × List ServiceRecord :=
  let lines := (splitlines extracted_text).map cleanup_line
  extractLoop lines 0 lines.length [] []

/-! ### Header-field extractors (source lines 149–172) -/

/-- Anchored match of `Invoice Number[:\s]*([\w\d-]+)` (case-insensitive). -/
def invoiceAt (s : List Char) : Option (List Char) :=
  obind (litCI (("invoice number").data) s) fun r1 =>
  obind (plusCls (fun c => wordChar c || c == '-')
    (skipCls (fun c => c == ':' || wsChar c) r1)) fun t2 =>
  some t2.1

/-- `re.search` for the invoice-number pattern. -/
def invoiceSearch : List Char → Option (List Char)
  | [] => none
  | c :: rest => orE (invoiceAt (c :: rest)) (invoiceSearch rest)

/-- Source `extract_invoice_details`. -/
def extract_invoice_details (text : String) : Option String :=
  (invoiceSearch text.data).map String.mk

/-- The digit tail `\s*(\d+)` shared by both PO alternatives; returns the
captured digits and the rest of the input after the match. -/
def poDigitsTail (r : List Char) : Option (List Char × List Char) :=
  plusCls digitChar (skipCls wsChar r)

/-- Anchored match of `(PO[-\s]?|Purchase Order[:\s#]?)\s*(\d+)`
(case-insensitive): the optional separator character of each alternative
backtracks between its taken and untaken form. -/
def poAt (s : List Char) : Option (List Char × List Char) :=
  orE
    (obind (litCI (("po").data) s) fun r =>
      orE
        (obind (oneOf (fun c => c == '-' || wsChar c) r) fun r2 => poDigitsTail r2)
        (poDigitsTail r))
    (obind (litCI (("purchase order").data) s) fun r =>
      orE
        (obind (oneOf (fun c => c == ':' || wsChar c || c == '#') r) fun r2 =>
          poDigitsTail r2)
        (poDigitsTail r))

/-- `re.findall`: scan left to right, non-overlapping, resuming after each
match; the fuel is the input length (every step strictly shrinks the rest). -/
def poFindAll : Nat → List Char → List String
  | 0, _ => []
  | _ + 1, [] => []
  | fuel + 1, c :: rest =>
    match poAt (c :: rest) with
    | some (ds, after) => String.mk ds :: poFindAll fuel after
    | none => poFindAll fuel rest

/-- Source `extract_po_numbers`. -/
def extract_po_numbers (text : String) : List String :=
  poFindAll text.data.length text.data

/-- Supplier info as returned by `extract_supplier_info`. -/
structure SupplierInfo where
  name : String
  address : String
deriving DecidableEq, Repr

/-- The segment before the first `'\n'`, provided one exists. -/
def firstNlSeg : List Char → Option (List Char)
  | [] => none
  | '\n' :: _ => some []
  | c :: rest => (firstNlSeg rest).map (fun t => c :: t)

/-- The `\n(.+?)\n` tail of the supplier pattern (`re.DOTALL`): a newline,
then the shortest nonempty run up to a second newline (the address). -/
def nlAddr : List Char → Option (List Char)
  | '\n' :: c :: rest => (firstNlSeg rest).map (fun t => c :: t)
  | _ => none

/-- Anchored match of `([A-Z\s]+LTD|INC|GMBH)\n(.+?)\n` (case-sensitive):
the alternation is tried left to right; in the first alternative the greedy
`[A-Z\s]+` backtracks longest-first before the literal `LTD`. -/
def supplierAt (s : List Char) : Option (List Char × List Char) :=
  orE
    (tryDescend
      (fun n =>
        obind (litCS (("LTD").data) (s.drop n)) fun r =>
        obind (nlAddr r) fun a =>
        some (s.take n ++ ("LTD").data, a))
      1 ((s.takeWhile upWsChar).length))
    (orE
      (obind (litCS (("INC").data) s) fun r =>
        obind (nlAddr r) fun a =>
        some ((("INC").data), a))
      (obind (litCS (("GMBH").data) s) fun r =>
        obind (nlAddr r) fun a =>
        some ((("GMBH").data), a)))

/-- `re.search` for the supplier pattern. -/
def supplierSearch : List Char → Option (List Char × List Char)
  | [] => none
  | c :: rest => orE (supplierAt (c :: rest)) (supplierSearch rest)

/-- Source `extract_supplier_info`. -/
def extract_supplier_info (text : String) : Option SupplierInfo :=
  match supplierSearch text.data with
  | some (g1, g2) =>
    some { name := String.mk (pyStripL g1), address := String.mk (pyStripL g2) }
  | none => none

/-! ### Reconciliation engine (source lines 349–404)

`round(x, 2)` is the Python round-half-even, modelled exactly on the rational
value. -/

/-- Round half to even, on the exact rational value. -/
def roundHalfEven (x : ℚ) : Int :=
  let n : Int := x.num
  let d : Int := (x.den : Int)
  let f : Int := Int.ediv n d
  let r : Int := n - f * d
  if 2 * r < d then f else if d < 2 * r then f + 1 else if f % 2 = 0 then f else f + 1

/-- Python `round(x, 2)`. -/
def round2 (x : ℚ) : ℚ := ((roundHalfEven (x * 100) : ℚ)) / 100

/-- One entry of the product price-mismatch list. -/
structure ProductMismatch where
  product_code : String
  expected_total : ℚ
  actual_total : ℚ
deriving DecidableEq, Repr

/-- One entry of the service price-mismatch list. -/
structure ServiceMismatch where
  service_name : String
  expected_total : ℚ
  actual_total : ℚ
deriving DecidableEq, Repr

/-- A price consistency report (`price_mismatches` / `total_inconsistencies`). -/
structure ProductReport where
  price_mismatches : List ProductMismatch
  total_inconsistencies : Nat
deriving DecidableEq, Repr

/-- The service-side consistency report. -/
structure ServiceReport where
  price_mismatches : List ServiceMismatch
  total_inconsistencies : Nat
deriving DecidableEq, Repr

/-- The mismatch condition of the source: `abs(exp - act) > 0.01`. -/
def prodBad (p : ProductRecord) : Bool :=
  decide (abs ((p.quantity : ℚ) * p.unit_price - p.total_price) > 1 / 100)

/-- The mismatch entry appended by the source loop. -/
def prodMk (p : ProductRecord) : ProductMismatch :=
  { product_code := p.product_code,
    expected_total := round2 ((p.quantity : ℚ) * p.unit_price),
    actual_total := p.total_price }

/-- The body of the product report loop. -/
def prodStep (acc : List ProductMismatch) (p : ProductRecord) :
    List ProductMismatch :=
  if prodBad p then acc ++ [prodMk p] else acc

/-- Source `generate_consistency_report_for_products`. -/
def generate_consistency_report_for_products (products : List ProductRecord) :
    ProductReport :=
  let mismatches := products.foldl prodStep []
  { price_mismatches := mismatches, total_inconsistencies := mismatches.length }

/-- The mismatch condition for services. -/
def servBad (s : ServiceRecord) : Bool :=
  decide (abs ((s.hours : ℚ) * s.rate_per_hour - s.amount) > 1 / 100)

/-- The mismatch entry for services. -/
def servMk (s : ServiceRecord) : ServiceMismatch :=
  { service_name := s.service_name,
    expected_total := round2 ((s.hours : ℚ) * s.rate_per_hour),
    actual_total := s.amount }

/-- The body of the service report loop. -/
def servStep (acc : List ServiceMismatch) (s : ServiceRecord) :
    List ServiceMismatch :=
  if servBad s then acc ++ [servMk s] else acc

/-- Source `generate_consistency_report_for_services`. -/
def generate_consistency_report_for_services (services : List ServiceRecord) :
    ServiceReport :=
  let mismatches := services.foldl servStep []
  { price_mismatches := mismatches, total_inconsistencies := mismatches.length }

/-- The PO consistency report. -/
structure PoReport where
  missing_in_extracted : List String
  unused_in_products : List String
  total_inconsistencies : Nat
deriving DecidableEq, Repr

/-- The comprehension
`[p["po_number"] for p in products if "po_number" in p and p["po_number"]]`. -/
def productPoList (products : List ProductRecord) : List String :=
  products.filterMap
    (fun p =>
      match p.po_number with
      | some po => if po = ("") then none else some po
      | none => none)

/-- Source `generate_po_consistency_report`. -/
def generate_po_consistency_report (products : List ProductRecord)
    (po_numbers : List String) : PoReport :=
  let product_po_list := productPoList products
  let missing_in_extracted := product_po_list.filter (fun po => !po_numbers.contains po)
  let unused_in_products := po_numbers.filter (fun po => !product_po_list.contains po)
  { missing_in_extracted := missing_in_extracted,
    unused_in_products := unused_in_products,
    total_inconsistencies := missing_in_extracted.length + unused_in_products.length }

/-! ### Table acquisition (source lines 91–106 and the table branch of
`process_pdf`)

A detected Camelot table is a list of rows, each a list of cell strings; a
parsed row is the dict `zip(headers, cells)` (pandas keeps the last value
for a duplicated column label). -/

/-- Python dict lookup with default (`row.get(key, dflt)`); on duplicate
keys the last binding wins. -/
def dictGet (row : List (String × String)) (key dflt : String) : String :=
  match row.reverse.find? (fun kv => kv.1 == key) with
  | some kv => kv.2
  | none => dflt

/-- The rows of one table: the first row is consumed as the header key set,
the remaining rows become dicts. -/
def tableRows (t : List (List String)) : List (List (String × String)) :=
  match t with
  | [] => []
  | hdr :: rest => rest.map (fun r => hdr.zip r)

/-- Source `parse_camelot_tables`: tables with fewer than 2 rows are
skipped (`if df.shape[0] < 2: continue`); rows accumulate in order. -/
def parse_camelot_tables (tables : List (List (List String))) :
    List (List (String × String)) :=
  tables.foldl (fun acc t => if t.length < 2 then acc else acc ++ tableRows t) []

/-- The row-to-record mapping inlined in the table branch of `process_pdf`:
cells default (`row.get(...)`), then `try: q = int(qty); p = fix_float(price);
t = fix_float(total) except: q = 0; p = 0.0; t = 0.0`.  `fix_float` is total,
so the bare `except` fires exactly when `int(qty)` fails. -/
def tableRowToProduct (row : List (String × String)) : ProductRecord :=
  let code := dictGet row ("Product Code") ("")
  let qty := dictGet row ("Qty") ("0")
  let price := dictGet row ("Price") ("0")
  let total := dictGet row ("Total") ("0")
  match parseIntPyL qty.data with
  | some q =>
    { product_code := code, quantity := q,
      unit_price := fix_float price, total_price := fix_float total }
  | none =>
    { product_code := code, quantity := 0, unit_price := 0, total_price := 0 }

/-! ### Acquisition cascade (source lines 33–71 and 430–488)

Collaborators are modelled by their observable outcomes: the Camelot call
returns a table list or raises; the PyPDF2 reader returns the per-page texts
(after the `or ""`) or raises; the OCR pipeline returns the accumulated text
or raises. -/

/-- Decidable equality for collaborator outcomes. -/
instance exceptDecEq [DecidableEq ε] [DecidableEq α] : DecidableEq (Except ε α)
  | Except.error a, Except.error b =>
    if h : a = b then isTrue (by rw [h])
    else isFalse (fun he => by cases he; exact h rfl)
  | Except.error _, Except.ok _ => isFalse (fun he => by cases he)
  | Except.ok _, Except.error _ => isFalse (fun he => by cases he)
  | Except.ok a, Except.ok b =>
    if h : a = b then isTrue (by rw [h])
    else isFalse (fun he => by cases he; exact h rfl)

/-- The per-document collaborator outcomes. -/
structure Env where
  camelot : Except String (List (List (List String)))
  pypdf : Except String (List String)
  ocr : Except String String
deriving DecidableEq, Repr

/-- Source `extract_text_with_pypdf2`: any exception is caught and yields
`""`; otherwise the page texts are joined with `"\n"`. -/
def extract_text_with_pypdf2 (e : Except String (List String)) : String :=
  match e with
  | Except.ok pages => String.intercalate ("\n") pages
  | Except.error _ => ("")

/-- Source `pdf_to_text_fallback`: digital text when it reaches the
threshold, otherwise the OCR result (whose exceptions are NOT caught). -/
def pdf_to_text_fallback (env : Env) : Except String String :=
  let txt := extract_text_with_pypdf2 env.pypdf
  if txt.length ≥ MIN_CHAR_THRESHOLD then Except.ok txt else env.ocr

/-- The tuple returned by `process_pdf`, with named fields. -/
structure ExtractionResult where
  invoice_number : Option String
  supplier_info : Option SupplierInfo
  po_numbers : List String
  products : List ProductRecord
  services : List ServiceRecord
  product_report : ProductReport
  service_report : ServiceReport
  po_report : PoReport
deriving DecidableEq, Repr

/-- The fallback branch (B) of `process_pdf`: OCR/regex extraction over the
acquired text.  An OCR exception propagates. -/
def process_pdf_fallback (env : Env) : Except String ExtractionResult :=
  match pdf_to_text_fallback env with
  | Except.error e => Except.error e
  | Except.ok extracted_text =>
    let invoice_num := extract_invoice_details extracted_text
    let supp := extract_supplier_info extracted_text
    let pnums := extract_po_numbers extracted_text
    let prodserv := extract_line_by_line_items extracted_text
    Except.ok
      { invoice_number := invoice_num, supplier_info := supp,
        po_numbers := pnums, products := prodserv.1, services := prodserv.2,
        product_report := generate_consistency_report_for_products prodserv.1,
        service_report := generate_consistency_report_for_services prodserv.2,
        po_report := generate_po_consistency_report prodserv.1 pnums }

/-- The table branch (A) of `process_pdf`, entered with the Camelot result:
with at least one table, build products from the table rows, header facts
from the PyPDF2 text, a fixed empty service report, and return; with no
table, fall back to branch B. -/
def process_pdf_table (env : Env) (tables : List (List (List String))) :
    Except String ExtractionResult :=
  if 0 < tables.length then
    let table_rows := parse_camelot_tables tables
    let products := table_rows.map tableRowToProduct
    let txt := extract_text_with_pypdf2 env.pypdf
    let pnums := extract_po_numbers txt
    Except.ok
      { invoice_number := extract_invoice_details txt,
        supplier_info := extract_supplier_info txt,
        po_numbers := pnums, products := products, services := [],
        product_report := generate_consistency_report_for_products products,
        service_report := { price_mismatches := [], total_inconsistencies := 0 },
        po_report := generate_po_consistency_report products pnums }
  else process_pdf_fallback env

/-- Source `process_pdf`: try Camelot first; a Camelot exception falls back
to branch B. -/
def process_pdf (env : Env) : Except String ExtractionResult :=
  match env.camelot with
  | Except.ok tables => process_pdf_table env tables
  | Except.error _ => process_pdf_fallback env

/-- The window text at width `k` (the single cleaned-and-stripped line for
`k = 0`, the merged string otherwise) — used to state the tokenizer claim. -/
def windowText (lines : List String) (i k : Nat) : String :=
  if k = 0 then pyStrip (lines.getD i (""))
  else buildMerged lines i (pyStrip (lines.getD i (""))) k

/-! ## Helper lemmas -/

theorem orE_eq_some {α : Type _} {a b : Option α} {v : α} (h : orE a b = some v) :
    a = some v ∨ b = some v := by
  cases a with
  | none => exact Or.inr h
  | some x => exact Or.inl h

theorem obind_eq_some {α β : Type _} {a : Option α} {f : α → Option β} {v : β} :
    obind a f = some v ↔ ∃ x, a = some x ∧ f x = some v := by
  cases a <;> simp [obind]

theorem tryDescend_eq_some {α : Type _} {k : Nat → Option α} {lo n : Nat} {v : α}
    (h : tryDescend k lo n = some v) : ∃ m, k m = some v := by
  induction n with
  | zero =>
    unfold tryDescend at h
    split at h
    · exact ⟨0, h⟩
    · simp at h
  | succ n ih =>
    unfold tryDescend at h
    split at h
    · simp at h
    · rcases orE_eq_some h with h1 | h1
      · exact ⟨n + 1, h1⟩
      · exact ih h1

theorem tryAscend_eq_some {α : Type _} {k : Nat → Option α} {start fuel : Nat} {v : α}
    (h : tryAscend k start fuel = some v) : ∃ m, k m = some v := by
  induction fuel generalizing start with
  | zero => exact ⟨start, h⟩
  | succ fuel ih =>
    unfold tryAscend at h
    rcases orE_eq_some h with h1 | h1
    · exact ⟨start, h1⟩
    · exact ih h1

theorem takeWhile_all {p : Char → Bool} (l : List Char) :
    (l.takeWhile p).all p = true := by
  induction l with
  | nil => rfl
  | cons c t ih => by_cases hc : p c = true <;> simp [List.takeWhile, hc, ih]

theorem plusCls_eq_some {p : Char → Bool} {s r t : List Char}
    (h : plusCls p s = some (r, t)) : r ≠ [] ∧ r.all p = true := by
  simp only [plusCls] at h
  split at h
  · simp at h
  · rename_i hne
    simp only [Option.some.injEq, Prod.mk.injEq] at h
    obtain ⟨hr, _⟩ := h
    subst hr
    exact ⟨by simpa [List.isEmpty_iff] using hne, takeWhile_all s⟩

theorem ws_not_digit {c : Char} (h : wsChar c = true) : digitChar c = false := by
  simp only [wsChar, Bool.or_eq_true, beq_iff_eq] at h
  rcases h with ((((h | h) | h) | h) | h) | h <;> subst h <;> decide

theorem digit_not_ws {c : Char} (h : digitChar c = true) : wsChar c = false := by
  cases hw : wsChar c
  · rfl
  · rw [ws_not_digit hw] at h
    cases h

theorem dropWhile_eq_self_of_all {p : Char → Bool} {l : List Char}
    (h : ∀ c ∈ l, p c = false) : l.dropWhile p = l := by
  cases l with
  | nil => rfl
  | cons c t => simp [List.dropWhile, h c (by simp)]

theorem pyStripL_id {l : List Char} (h : ∀ c ∈ l, wsChar c = false) :
    pyStripL l = l := by
  unfold pyStripL
  rw [dropWhile_eq_self_of_all h,
    dropWhile_eq_self_of_all (fun c hc => h c (by simpa using hc)),
    List.reverse_reverse]

theorem pyStripL_digits {r : List Char} (h : r.all digitChar = true) :
    pyStripL r = r :=
  pyStripL_id (fun c hc => digit_not_ws (by rw [List.all_eq_true] at h; exact h c hc))

theorem intDigitsGo_all {r : List Char} (h : r.all digitChar = true) :
    ∀ acc, ∃ n, intDigitsGo acc false r = some n := by
  induction r with
  | nil => exact fun acc => ⟨acc, rfl⟩
  | cons c t ih =>
    intro acc
    simp only [List.all_cons, Bool.and_eq_true] at h
    simpa [intDigitsGo, h.1] using ih h.2 (acc * 10 + (c.toNat - 48))

theorem intDigits_of_digits {r : List Char} (hne : r ≠ []) (h : r.all digitChar = true) :
    ∃ n, intDigits r = some n := by
  cases r with
  | nil => exact absurd rfl hne
  | cons c t =>
    simp only [List.all_cons, Bool.and_eq_true] at h
    simpa [intDigits, h.1] using intDigitsGo_all h.2 (c.toNat - 48)

theorem parseIntPyL_digits {r : List Char} (hne : r ≠ []) (h : r.all digitChar = true) :
    ∃ q, parseIntPyL r = some q := by
  unfold parseIntPyL
  rw [pyStripL_digits h]
  cases r with
  | nil => exact absurd rfl hne
  | cons c t =>
    have hc : digitChar c = true := by
      simp only [List.all_cons, Bool.and_eq_true] at h
      exact h.1
    have hplus : (c == '+') = false := by
      cases hcc : c == '+'
      · rfl
      · rw [eq_of_beq hcc] at hc
        cases hc
    have hminus : (c == '-') = false := by
      cases hcc : c == '-'
      · rfl
      · rw [eq_of_beq hcc] at hc
        cases hc
    obtain ⟨n, hn⟩ := intDigits_of_digits (List.cons_ne_nil c t) h
    exact ⟨Int.ofNat n, by simp [hplus, hminus, hn]⟩

/-! ## C1: the numeric normalizer -/

/-- C1: `fix_float` applies its cleanup steps in the specified order, so the
spec vectors hold — `fix_float("1.234,56") = 1234.56`,
`fix_float("12..34") = 12.34`, `fix_float("") = 0.0`,
`fix_float("S1_0.5") = 10.5` — and on any input whose cleaned form does not
parse as a float it returns `0.0` rather than raising. -/
theorem fix_float_pipeline_spec :
    fix_float ("1.234,56") = 1234.56 ∧
    fix_float ("12..34") = 12.34 ∧
    fix_float ("") = 0 ∧
    fix_float ("S1_0.5") = 10.5 ∧
    ∀ s : String, parseFloatL (fixFloatClean s.data) = none → fix_float s = 0 := by
  refine ⟨?_, ?_, ?_, ?_, ?_⟩
  · with_unfolding_all rfl
  · with_unfolding_all rfl
  · with_unfolding_all rfl
  · with_unfolding_all rfl
  · intro s h
    simp [fix_float, fixFloatL, h]

/-- Witness for C1: a token whose cleaned form fails to parse yields `0.0`. -/
theorem fix_float_pipeline_spec_witness : fix_float ("12a") = 0 :=
  fix_float_pipeline_spec.2.2.2.2 ("12a") (by decide)

/-! ## C3: product/service price reconciliation -/

theorem foldl_prodStep (ps : List ProductRecord) (acc : List ProductMismatch) :
    ps.foldl prodStep acc = acc ++ (ps.filter prodBad).map prodMk := by
  induction ps generalizing acc with
  | nil => simp
  | cons p t ih =>
    rw [List.foldl_cons, ih]
    unfold prodStep
    by_cases hb : prodBad p = true <;> simp [hb, List.filter_cons]

theorem foldl_servStep (ss : List ServiceRecord) (acc : List ServiceMismatch) :
    ss.foldl servStep acc = acc ++ (ss.filter servBad).map servMk := by
  induction ss generalizing acc with
  | nil => simp
  | cons s t ih =>
    rw [List.foldl_cons, ih]
    unfold servStep
    by_cases hb : servBad s = true <;> simp [hb, List.filter_cons]

/-- C3: the product consistency report lists exactly the records with
`|quantity * unit_price - total_price| > 0.01` (strict absolute tolerance),
each entry carrying the expected total rounded to 2 decimals and the stated
actual total; `total_inconsistencies` is the number of entries; the same
holds for services with `hours * rate_per_hour` versus `amount`; and at the
spec vectors a `(3, 10.0, 31.0)` product is reported as
`(expected 30.0, actual 31.0)`, an exact total is not reported, and a record
at exactly `0.01` difference is not reported. -/
theorem consistency_report_tolerance :
    (∀ products : List ProductRecord,
      (generate_consistency_report_for_products products).price_mismatches =
        (products.filter (fun p =>
            decide (abs ((p.quantity : ℚ) * p.unit_price - p.total_price) > 1 / 100))).map
          (fun p =>
            { product_code := p.product_code,
              expected_total := round2 ((p.quantity : ℚ) * p.unit_price),
              actual_total := p.total_price })) ∧
    (∀ products : List ProductRecord,
      (generate_consistency_report_for_products products).total_inconsistencies =
        (generate_consistency_report_for_products products).price_mismatches.length) ∧
    (∀ services : List ServiceRecord,
      (generate_consistency_report_for_services services).price_mismatches =
        (services.filter (fun s =>
            decide (abs ((s.hours : ℚ) * s.rate_per_hour - s.amount) > 1 / 100))).map
          (fun s =>
            { service_name := s.service_name,
              expected_total := round2 ((s.hours : ℚ) * s.rate_per_hour),
              actual_total := s.amount })) ∧
    (∀ services : List ServiceRecord,
      (generate_consistency_report_for_services services).total_inconsistencies =
        (generate_consistency_report_for_services services).price_mismatches.length) ∧
    generate_consistency_report_for_products
        [{ product_code := ("PRD-1"), quantity := 3, unit_price := 10, total_price := 31 }] =
      { price_mismatches :=
          [{ product_code := ("PRD-1"), expected_total := 30, actual_total := 31 }],
        total_inconsistencies := 1 } ∧
    generate_consistency_report_for_products
        [{ product_code := ("PRD-1"), quantity := 3, unit_price := 10, total_price := 30 }] =
      { price_mismatches := [], total_inconsistencies := 0 } ∧
    generate_consistency_report_for_products
        [{ product_code := ("PRD-1"), quantity := 1, unit_price := 10, total_price := 10.01 }] =
      { price_mismatches := [], total_inconsistencies := 0 } := by
  refine ⟨?_, ?_, ?_, ?_, ?_, ?_, ?_⟩
  · intro products
    have h := foldl_prodStep products []
    simp only [generate_consistency_report_for_products]
    exact h
  · intro products
    simp [generate_consistency_report_for_products]
  · intro services
    have h := foldl_servStep services []
    simp only [generate_consistency_report_for_services]
    exact h
  · intro services
    simp [generate_consistency_report_for_services]
  · with_unfolding_all rfl
  · with_unfolding_all rfl
  · with_unfolding_all rfl

/-! ## C4: PO reconciliation -/

theorem poField_eq_some {p : ProductRecord} {x : String} :
    (match p.po_number with
      | some po => if po = ("") then none else some po
      | none => none) = some x ↔ p.po_number = some x ∧ x ≠ ("") := by
  cases hpo : p.po_number with
  | none => simp
  | some po =>
    have hred : (match some po with
        | some po => if po = ("") then none else some po
        | none => none) = (if po = ("") then none else some po : Option String) := rfl
    rw [hred]
    by_cases hemp : po = ("")
    · rw [if_pos hemp]
      constructor
      · exact fun h => Option.noConfusion h
      · rintro ⟨h1, h2⟩
        cases h1
        exact absurd hemp h2
    · rw [if_neg hemp]
      constructor
      · intro h
        cases h
        exact ⟨rfl, hemp⟩
      · exact fun h => h.1

/-- C4: the PO report is the two-sided difference between product-referenced
POs and header POs — membership in `missing_in_extracted` is exactly
"referenced by a product (with a truthy PO field) but absent from the
header list", membership in `unused_in_products` is exactly "in the header
list but referenced by no product", `total_inconsistencies` is the combined
count — and the spec vector holds: header POs `["100","200"]` with one
product referencing `"100"` yields no missing POs and unused `["200"]`. -/
theorem po_report_set_difference :
    (∀ (products : List ProductRecord) (pos : List String) (x : String),
      x ∈ (generate_po_consistency_report products pos).missing_in_extracted ↔
        x ∈ productPoList products ∧ x ∉ pos) ∧
    (∀ (products : List ProductRecord) (pos : List String) (x : String),
      x ∈ (generate_po_consistency_report products pos).unused_in_products ↔
        x ∈ pos ∧ x ∉ productPoList products) ∧
    (∀ (products : List ProductRecord) (x : String),
      x ∈ productPoList products ↔
        ∃ p ∈ products, p.po_number = some x ∧ x ≠ ("")) ∧
    (∀ (products : List ProductRecord) (pos : List String),
      (generate_po_consistency_report products pos).total_inconsistencies =
        (generate_po_consistency_report products pos).missing_in_extracted.length +
          (generate_po_consistency_report products pos).unused_in_products.length) ∧
    generate_po_consistency_report
        [{ product_code := ("PRD-1"), quantity := 1, unit_price := 1, total_price := 1,
           po_number := some ("100") }] [("100"), ("200")] =
      { missing_in_extracted := [], unused_in_products := [("200")],
        total_inconsistencies := 1 } := by
  refine ⟨?_, ?_, ?_, ?_, ?_⟩
  · intro products pos x
    simp [generate_po_consistency_report, List.mem_filter, List.elem_iff]
  · intro products pos x
    simp [generate_po_consistency_report, List.mem_filter, List.elem_iff]
  · intro products x
    simp only [productPoList, List.mem_filterMap]
    constructor
    · rintro ⟨p, hp, hf⟩
      exact ⟨p, hp, poField_eq_some.mp hf⟩
    · rintro ⟨p, hp, h1, h2⟩
      exact ⟨p, hp, poField_eq_some.mpr ⟨h1, h2⟩⟩
  · intro products pos
    simp [generate_po_consistency_report]
  · exact of_decide_eq_true (by with_unfolding_all rfl)

/-! ## C10: table-row parsing defaults -/

theorem dictGet_of_missing {row : List (String × String)} {key dflt : String}
    (h : ∀ kv ∈ row, kv.1 ≠ key) : dictGet row key dflt = dflt := by
  unfold dictGet
  rw [List.find?_eq_none.mpr]
  · intro kv hkv
    simpa using h kv (List.mem_reverse.mp hkv)

/-- C10: in the table path, a row whose `Qty` cell does not parse as an
integer yields a record with quantity `0`, unit price `0.0` and total price
`0.0` all together (the bare `except` zeroes all three even when the price
and total cells are parseable); a parseable `Qty` yields the parsed values;
missing columns default the product code to `""` and the numeric cells to
`"0"`; and a table with fewer than 2 rows contributes no rows. -/
theorem table_row_parse_defaults :
    (∀ row : List (String × String),
      parseIntPyL (dictGet row ("Qty") ("0")).data = none →
      tableRowToProduct row =
        { product_code := dictGet row ("Product Code") (""), quantity := 0,
          unit_price := 0, total_price := 0 }) ∧
    (∀ (row : List (String × String)) (q : Int),
      parseIntPyL (dictGet row ("Qty") ("0")).data = some q →
      tableRowToProduct row =
        { product_code := dictGet row ("Product Code") (""), quantity := q,
          unit_price := fix_float (dictGet row ("Price") ("0")),
          total_price := fix_float (dictGet row ("Total") ("0")) }) ∧
    (∀ row : List (String × String), (∀ kv ∈ row, kv.1 ≠ ("Product Code")) →
      (tableRowToProduct row).product_code = ("")) ∧
    (∀ row : List (String × String), (∀ kv ∈ row, kv.1 ≠ ("Qty")) →
      (tableRowToProduct row).quantity = 0) ∧
    (∀ (ts1 ts2 : List (List (List String))) (t : List (List String)),
      t.length < 2 →
      parse_camelot_tables (ts1 ++ t :: ts2) = parse_camelot_tables (ts1 ++ ts2)) := by
  refine ⟨?_, ?_, ?_, ?_, ?_⟩
  · intro row h
    simp only [tableRowToProduct, h]
  · intro row q h
    simp only [tableRowToProduct, h]
  · intro row h
    simp only [tableRowToProduct, dictGet_of_missing h]
    cases hq : parseIntPyL (dictGet row ("Qty") ("0")).data <;> rfl
  · intro row h
    simp only [tableRowToProduct, dictGet_of_missing h,
      show parseIntPyL (("0") : String).data = some 0 from by decide]
  · intro ts1 ts2 t ht
    unfold parse_camelot_tables
    rw [List.foldl_append, List.foldl_append, List.foldl_cons, if_pos ht]

/-- Witness for C10: a row with an unparseable `Qty` but parseable `Price`
and `Total` cells is fully zeroed. -/
theorem table_row_parse_defaults_witness :
    tableRowToProduct
        [(("Qty"), ("abc")), (("Price"), ("5.00")), (("Total"), ("10.00"))] =
      { product_code := (""), quantity := 0, unit_price := 0, total_price := 0 } := by
  have h := table_row_parse_defaults.1
    [(("Qty"), ("abc")), (("Price"), ("5.00")), (("Total"), ("10.00"))] (by decide)
  rw [h]
  exact of_decide_eq_true (by with_unfolding_all rfl)

/-! ## C5: cascade precedence of the table path -/

/-- C5: whenever the table detector returns at least one table, the
assembled result has an empty service list and a service report with zero
inconsistencies regardless of the document text, while the header facts are
still extracted from the digital text and the product and PO reports are
computed normally from the table-derived products. -/
theorem table_mode_services_empty (env : Env) (ts : List (List (List String)))
    (h1 : env.camelot = Except.ok ts) (h2 : 0 < ts.length) :
    process_pdf env = Except.ok
      { invoice_number := extract_invoice_details (extract_text_with_pypdf2 env.pypdf),
        supplier_info := extract_supplier_info (extract_text_with_pypdf2 env.pypdf),
        po_numbers := extract_po_numbers (extract_text_with_pypdf2 env.pypdf),
        products := (parse_camelot_tables ts).map tableRowToProduct,
        services := [],
        product_report := generate_consistency_report_for_products
          ((parse_camelot_tables ts).map tableRowToProduct),
        service_report := { price_mismatches := [], total_inconsistencies := 0 },
        po_report := generate_po_consistency_report
          ((parse_camelot_tables ts).map tableRowToProduct)
          (extract_po_numbers (extract_text_with_pypdf2 env.pypdf)) } := by
  have hcase : process_pdf env = process_pdf_table env ts := by
    unfold process_pdf
    rw [h1]
  rw [hcase]
  simp only [process_pdf_table, if_pos h2]

/-- Witness for C5: a concrete environment with one two-row table. -/
theorem table_mode_services_empty_witness :
    process_pdf
        ⟨Except.ok [[[("Product Code"), ("Qty"), ("Price"), ("Total")],
                     [("PRD-9"), ("2"), ("5.00"), ("10.00")]]],
         Except.ok [("Invoice Number: INV-1 PO-100")],
         Except.ok ("")⟩ =
      Except.ok
        { invoice_number := some ("INV-1"),
          supplier_info := none,
          po_numbers := [("100")],
          products := [{ product_code := ("PRD-9"), quantity := 2,
                         unit_price := 5, total_price := 10 }],
          services := [],
          product_report := { price_mismatches := [], total_inconsistencies := 0 },
          service_report := { price_mismatches := [], total_inconsistencies := 0 },
          po_report := { missing_in_extracted := [], unused_in_products := [("100")],
                         total_inconsistencies := 1 } } := by
  have h := table_mode_services_empty
    ⟨Except.ok [[[("Product Code"), ("Qty"), ("Price"), ("Total")],
                 [("PRD-9"), ("2"), ("5.00"), ("10.00")]]],
     Except.ok [("Invoice Number: INV-1 PO-100")],
     Except.ok ("")⟩
    [[[("Product Code"), ("Qty"), ("Price"), ("Total")],
      [("PRD-9"), ("2"), ("5.00"), ("10.00")]]] rfl (by decide)
  rw [h]
  exact of_decide_eq_true (by with_unfolding_all rfl)

/-! ## C8: exception containment across the cascade -/

theorem fallback_error_iff (env : Env) (e : String) :
    process_pdf_fallback env = Except.error e ↔
      ((extract_text_with_pypdf2 env.pypdf).length < MIN_CHAR_THRESHOLD ∧
        env.ocr = Except.error e) := by
  unfold process_pdf_fallback pdf_to_text_fallback
  by_cases h : (extract_text_with_pypdf2 env.pypdf).length ≥ MIN_CHAR_THRESHOLD
  · rw [if_pos h]
    constructor
    · intro hc
      cases hc
    · rintro ⟨h1, _⟩
      omega
  · rw [if_neg h]
    cases hocr : env.ocr with
    | error e2 =>
      constructor
      · intro hc
        cases hc
        exact ⟨by omega, rfl⟩
      · rintro ⟨_, h2⟩
        cases h2
        rfl
    | ok t =>
      constructor
      · intro hc
        cases hc
      · rintro ⟨_, h2⟩
        cases h2

/-- C8 (amended): `process_pdf` raises exactly when the table detector
yields no table (an exception or an empty result, both treated as
"no result"), the digital text is below the threshold, and the OCR stage
raises; in every other situation an `ExtractionResult` is produced.  In
particular table-detector and text-extractor exceptions are contained, but
an OCR exception escapes the per-document boundary. -/
theorem process_pdf_error_iff (env : Env) (e : String) :
    process_pdf env = Except.error e ↔
      ((∀ ts, env.camelot = Except.ok ts → ts.length = 0) ∧
        (extract_text_with_pypdf2 env.pypdf).length < MIN_CHAR_THRESHOLD ∧
        env.ocr = Except.error e) := by
  cases hcam : env.camelot with
  | error msg =>
    have hcase : process_pdf env = process_pdf_fallback env := by
      unfold process_pdf
      rw [hcam]
    rw [hcase, fallback_error_iff]
    constructor
    · rintro ⟨h1, h2⟩
      exact ⟨fun ts hts => Except.noConfusion hts, h1, h2⟩
    · rintro ⟨_, h1, h2⟩
      exact ⟨h1, h2⟩
  | ok ts =>
    have hcase : process_pdf env = process_pdf_table env ts := by
      unfold process_pdf
      rw [hcam]
    rw [hcase]
    unfold process_pdf_table
    by_cases h2 : 0 < ts.length
    · rw [if_pos h2]
      constructor
      · intro hc
        cases hc
      · rintro ⟨h3, _, _⟩
        have := h3 ts rfl
        omega
    · rw [if_neg h2, fallback_error_iff]
      constructor
      · rintro ⟨hl, ho⟩
        refine ⟨fun ts2 hts => ?_, hl, ho⟩
        cases hts
        omega
      · rintro ⟨_, hl, ho⟩
        exact ⟨hl, ho⟩

/-- Witness for the amended C8 theorem: an empty table list, empty digital
text and a failing OCR engine produce exactly the OCR error. -/
theorem process_pdf_error_iff_witness :
    process_pdf ⟨Except.ok [], Except.ok [], Except.error ("boom")⟩ =
      Except.error ("boom") :=
  (process_pdf_error_iff ⟨Except.ok [], Except.ok [], Except.error ("boom")⟩
      ("boom")).mpr
    ⟨fun ts h => by cases h; rfl, by decide, rfl⟩

/-- Counterexample for C8 as stated: a document that falls through to the
OCR state with a raising OCR engine makes `process_pdf` raise — no
`ExtractionResult` is produced, so the per-document boundary does not
contain this collaborator failure. -/
theorem process_pdf_ocr_exception_escapes :
    process_pdf ⟨Except.error ("no table"), Except.ok [], Except.error ("ocr crashed")⟩ =
      Except.error ("ocr crashed") := by
  decide

/-! ## Digit-capture lemmas: the `(\d+)` groups of the three grammars
capture nonempty all-digit runs -/

theorem matchA_at_qty {s : List Char} {a : GroupsA} (h : matchA_at s = some a) :
    a.qty ≠ [] ∧ a.qty.all digitChar = true := by
  simp only [matchA_at, obind_eq_some, Option.some.injEq] at h
  obtain ⟨r1, -, h⟩ := h
  obtain ⟨r3, -, h⟩ := h
  obtain ⟨c4, -, h⟩ := h
  obtain ⟨w5, -, h⟩ := h
  obtain ⟨r6, -, h⟩ := h
  obtain ⟨⟨qty, r7⟩, hq, h⟩ := h
  obtain ⟨ua, -, ha⟩ := h
  obtain ⟨h1, h2⟩ := plusCls_eq_some hq
  subst ha
  exact ⟨h1, h2⟩

theorem matchA_qty {s : List Char} {a : GroupsA} (h : matchA s = some a) :
    a.qty ≠ [] ∧ a.qty.all digitChar = true := by
  induction s with
  | nil => cases h
  | cons c rest ih =>
    unfold matchA at h
    rcases orE_eq_some h with h1 | h1
    · exact matchA_at_qty h1
    · exact ih h1

theorem matchB_tail_qty {code desc r : List Char} {b : GroupsB}
    (h : matchB_tail code desc r = some b) :
    b.qty ≠ [] ∧ b.qty.all digitChar = true := by
  simp only [matchB_tail, obind_eq_some, Option.some.injEq] at h
  obtain ⟨w1, -, h⟩ := h
  obtain ⟨r2, -, h⟩ := h
  obtain ⟨⟨qty, r3⟩, hq, h⟩ := h
  obtain ⟨w4, -, h⟩ := h
  obtain ⟨r5, -, h⟩ := h
  obtain ⟨p6, -, h⟩ := h
  obtain ⟨w7, -, h⟩ := h
  obtain ⟨r8, -, h⟩ := h
  obtain ⟨t9, -, hb⟩ := h
  obtain ⟨h1, h2⟩ := plusCls_eq_some hq
  subst hb
  exact ⟨h1, h2⟩

theorem matchB_at_qty {s : List Char} {b : GroupsB} (h : matchB_at s = some b) :
    b.qty ≠ [] ∧ b.qty.all digitChar = true := by
  simp only [matchB_at, obind_eq_some] at h
  obtain ⟨r1, -, h⟩ := h
  obtain ⟨c2, -, h⟩ := h
  obtain ⟨nws, h⟩ := tryDescend_eq_some h
  obtain ⟨nd, h⟩ := tryDescend_eq_some h
  exact matchB_tail_qty h

theorem matchB_qty {s : List Char} {b : GroupsB} (h : matchB s = some b) :
    b.qty ≠ [] ∧ b.qty.all digitChar = true := by
  induction s with
  | nil => cases h
  | cons c rest ih =>
    unfold matchB at h
    rcases orE_eq_some h with h1 | h1
    · exact matchB_at_qty h1
    · exact ih h1

theorem serviceTail_hours {g1 r : List Char} {m : GroupsS}
    (h : serviceTail g1 r = some m) :
    m.hours ≠ [] ∧ m.hours.all digitChar = true := by
  simp only [serviceTail, obind_eq_some, Option.some.injEq] at h
  obtain ⟨w1, -, h⟩ := h
  obtain ⟨r2, -, h⟩ := h
  obtain ⟨⟨hrs, r3⟩, hq, h⟩ := h
  obtain ⟨r4, -, h⟩ := h
  obtain ⟨r5, -, h⟩ := h
  obtain ⟨ra6, -, h⟩ := h
  obtain ⟨r7, -, h⟩ := h
  obtain ⟨w8, -, h⟩ := h
  obtain ⟨r9, -, h⟩ := h
  obtain ⟨a10, -, hm⟩ := h
  obtain ⟨h1, h2⟩ := plusCls_eq_some hq
  subst hm
  exact ⟨h1, h2⟩

theorem matchService_hours {s : List Char} {m : GroupsS}
    (h : matchService s = some m) :
    m.hours ≠ [] ∧ m.hours.all digitChar = true := by
  unfold matchService at h
  obtain ⟨n, h⟩ := tryAscend_eq_some h
  exact serviceTail_hours h

/-! ## C6: grammar priority order in `try_match_line` -/

/-- C6: `try_match_line` attempts Grammar A, then Grammar B, then the
service grammar, in that fixed priority order; the first matching grammar
determines the produced record (a line matching both A and B yields only
the Grammar A record, irrespective of B); a line matching no grammar
produces no record. -/
theorem try_match_line_priority :
    (∀ (line : String) (ps : List ProductRecord) (ss : List ServiceRecord)
        (a : GroupsA), matchA line.data = some a →
      try_match_line line ps ss = (true, parse_pattern_a a ps, ss)) ∧
    (∀ (line : String) (ps : List ProductRecord) (ss : List ServiceRecord)
        (b : GroupsB), matchA line.data = none → matchB line.data = some b →
      try_match_line line ps ss = (true, parse_pattern_b b ps, ss)) ∧
    (∀ (line : String) (ps : List ProductRecord) (ss : List ServiceRecord)
        (m : GroupsS), matchA line.data = none → matchB line.data = none →
        matchService line.data = some m →
      try_match_line line ps ss = (true, ps, parse_pattern_service m ss)) ∧
    (∀ (line : String) (ps : List ProductRecord) (ss : List ServiceRecord),
      matchA line.data = none → matchB line.data = none →
      matchService line.data = none →
      try_match_line line ps ss = (false, ps, ss)) := by
  refine ⟨?_, ?_, ?_, ?_⟩
  · intro line ps ss a h
    unfold try_match_line
    rw [h]
  · intro line ps ss b hA hB
    unfold try_match_line
    rw [hA, hB]
  · intro line ps ss m hA hB hS
    unfold try_match_line
    rw [hA, hB, hS]
  · intro line ps ss hA hB hS
    unfold try_match_line
    rw [hA, hB, hS]

/-- Witness for C6: a line on which both Grammar A and Grammar B match
produces only the Grammar A record. -/
theorem try_match_line_priority_witness :
    try_match_line
        ("Product Code: PRD-001 Quantity: 3 units Unit Price: $10.00 Amount: $30.00 PRD-9 Widget Qty: 2 Price: $4.00 Total: $8.00")
        [] [] =
      (true,
        [{ product_code := ("PRD-001"), quantity := 3, unit_price := 10,
           total_price := 30 }], []) ∧
    (matchB
        ("Product Code: PRD-001 Quantity: 3 units Unit Price: $10.00 Amount: $30.00 PRD-9 Widget Qty: 2 Price: $4.00 Total: $8.00").data).isSome
      = true := by
  constructor
  · rw [try_match_line_priority.1
      ("Product Code: PRD-001 Quantity: 3 units Unit Price: $10.00 Amount: $30.00 PRD-9 Widget Qty: 2 Price: $4.00 Total: $8.00")
      [] []
      ⟨("PRD-001").data, [('3')], ("10.00").data, ("30.00").data⟩
      (by decide)]
    exact of_decide_eq_true (by with_unfolding_all rfl)
  · decide

/-! ## C9: the `except ValueError` branches of the record builders are
unreachable on matched lines -/

theorem parseIntPyL_of_digits_strip {r : List Char} (hne : r ≠ [])
    (h : r.all digitChar = true) : ∃ q, parseIntPyL (pyStripL r) = some q := by
  rw [pyStripL_digits h]
  exact parseIntPyL_digits hne h

/-- C9: whenever Grammar A, Grammar B or the service grammar matches a line,
the integer parse of the quantity/hours capture succeeds (the capture is a
nonempty digit run) and `fix_float` is total, so the corresponding builder
appends exactly one record — the `except ValueError` branches are
unreachable, and a matched line is never silently dropped. -/
theorem grammar_builders_total :
    (∀ (s : List Char) (a : GroupsA) (ps : List ProductRecord),
      matchA s = some a →
      ∃ q r, parseIntPyL a.qty = some q ∧ parse_pattern_a a ps = ps ++ [r]) ∧
    (∀ (s : List Char) (b : GroupsB) (ps : List ProductRecord),
      matchB s = some b →
      ∃ q r, parseIntPyL (pyStripL b.qty) = some q ∧
        parse_pattern_b b ps = ps ++ [r]) ∧
    (∀ (s : List Char) (m : GroupsS) (ss : List ServiceRecord),
      matchService s = some m →
      ∃ q r, parseIntPyL (pyStripL m.hours) = some q ∧
        parse_pattern_service m ss = ss ++ [r]) := by
  refine ⟨?_, ?_, ?_⟩
  · intro s a ps h
    obtain ⟨h1, h2⟩ := matchA_qty h
    obtain ⟨q, hq⟩ := parseIntPyL_digits h1 h2
    have hrec : parse_pattern_a a ps =
        ps ++ [⟨String.mk a.code, none, q, fixFloatL a.up, fixFloatL a.amt, none⟩] := by
      unfold parse_pattern_a
      rw [hq]
    exact ⟨q, _, hq, hrec⟩
  · intro s b ps h
    obtain ⟨h1, h2⟩ := matchB_qty h
    obtain ⟨q, hq⟩ := parseIntPyL_of_digits_strip h1 h2
    have hrec : parse_pattern_b b ps =
        ps ++ [⟨String.mk (pyStripL b.code), some (String.mk (pyStripL b.desc)), q,
          fixFloatL (pyStripL b.price), fixFloatL (pyStripL b.total),
          (match b.po with
            | some ds => if ds.isEmpty then none else some (String.mk ds)
            | none => none)⟩] := by
      unfold parse_pattern_b
      rw [hq]
    exact ⟨q, _, hq, hrec⟩
  · intro s m ss h
    obtain ⟨h1, h2⟩ := matchService_hours h
    obtain ⟨q, hq⟩ := parseIntPyL_of_digits_strip h1 h2
    have hrec : parse_pattern_service m ss =
        ss ++ [⟨String.mk (stripCharsL ((":,.- ").data ++ [('\n')]) m.name), q,
          fixFloatL (pyStripL m.rate), fixFloatL (pyStripL m.amt)⟩] := by
      unfold parse_pattern_service
      rw [hq]
    exact ⟨q, _, hq, hrec⟩

/-- Witness for C9: the builder invoked by a concrete Grammar A match
appends exactly one record. -/
theorem grammar_builders_total_witness :
    ∃ (q : Int) (r : ProductRecord),
      parseIntPyL (GroupsA.qty ⟨("PRD-001").data, [('3')], ("10.00").data, ("30.00").data⟩)
          = some q ∧
        parse_pattern_a ⟨("PRD-001").data, [('3')], ("10.00").data, ("30.00").data⟩ [] =
          [] ++ [r] :=
  grammar_builders_total.1
    (("Product Code: PRD-001 Quantity: 3 units Unit Price: $10.00 Amount: $30.00").data)
    ⟨("PRD-001").data, [('3')], ("10.00").data, ("30.00").data⟩ [] (by decide)

/-! ## C2: the merge-window tokenizer -/

theorem extractLoop_succ (lines : List String) (i fuel : Nat)
    (ps : List ProductRecord) (ss : List ServiceRecord) :
    extractLoop lines i (fuel + 1) ps ss =
      if i < lines.length then
        (if pyStrip (lines.getD i ("")) = ("") then
          extractLoop lines (i + 1) fuel ps ss
        else
          match try_match_line (pyStrip (lines.getD i (""))) ps ss with
          | (true, ps2, ss2) => extractLoop lines (i + 1) fuel ps2 ss2
          | (false, _, _) =>
            match tryMerges lines i (pyStrip (lines.getD i (""))) ps ss 1
                (MAX_LINE_MERGE - 1) with
            | some (mc, ps2, ss2) => extractLoop lines (i + mc + 1) fuel ps2 ss2
            | none => extractLoop lines (i + 1) fuel ps ss)
      else (ps, ss) := rfl

theorem try_match_line_of_not_matches {l : String}
    (ps : List ProductRecord) (ss : List ServiceRecord)
    (h : lineMatches l = false) : try_match_line l ps ss = (false, ps, ss) := by
  unfold lineMatches at h
  cases hA : matchA l.data with
  | some x => rw [hA] at h; simp at h
  | none =>
    rw [hA] at h
    cases hB : matchB l.data with
    | some x => rw [hB] at h; simp at h
    | none =>
      rw [hB] at h
      cases hS : matchService l.data with
      | some x => rw [hS] at h; simp at h
      | none =>
        unfold try_match_line
        rw [hA, hB, hS]

theorem tryMerges_found (lines : List String) (i : Nat) (line : String)
    (ps ps2 : List ProductRecord) (ss ss2 : List ServiceRecord) (k : Nat) :
    ∀ fuel mc, mc ≤ k → k < mc + fuel → i + k < lines.length →
      (∀ j, mc ≤ j → j < k → lineMatches (buildMerged lines i line j) = false) →
      try_match_line (buildMerged lines i line k) ps ss = (true, ps2, ss2) →
      tryMerges lines i line ps ss mc fuel = some (k, ps2, ss2) := by
  intro fuel
  induction fuel with
  | zero =>
    intro mc h1 h2 _ _ _
    omega
  | succ fuel ih =>
    intro mc hmk hkf hlen hnom hmatch
    rcases Nat.eq_or_lt_of_le hmk with heq | hlt
    · subst heq
      unfold tryMerges
      rw [if_pos hlen, hmatch]
    · have hilen : i + mc < lines.length := by omega
      unfold tryMerges
      rw [if_pos hilen, try_match_line_of_not_matches ps ss (hnom mc le_rfl hlt)]
      exact ih (mc + 1) (by omega) (by omega) hlen
        (fun j hj1 hj2 => hnom j (by omega) hj2) hmatch

theorem tryMerges_none (lines : List String) (i : Nat) (line : String)
    (ps : List ProductRecord) (ss : List ServiceRecord) :
    ∀ fuel mc,
      (∀ j, mc ≤ j → j < mc + fuel → i + j < lines.length →
        lineMatches (buildMerged lines i line j) = false) →
      tryMerges lines i line ps ss mc fuel = none := by
  intro fuel
  induction fuel with
  | zero =>
    intro mc _
    rfl
  | succ fuel ih =>
    intro mc hnom
    unfold tryMerges
    by_cases hilen : i + mc < lines.length
    · rw [if_pos hilen,
        try_match_line_of_not_matches ps ss (hnom mc le_rfl (by omega) hilen)]
      exact ih (mc + 1) (fun j hj1 hj2 hj3 => hnom j (by omega) (by omega) hj3)
    · rw [if_neg hilen]

theorem windowText_zero (lines : List String) (i : Nat) :
    windowText lines i 0 = pyStrip (lines.getD i ("")) := rfl

theorem windowText_pos (lines : List String) (i k : Nat) (hk : 0 < k) :
    windowText lines i k = buildMerged lines i (pyStrip (lines.getD i (""))) k := by
  unfold windowText
  rw [if_neg (by omega)]

/-- C2: one step of the tokenizer cursor loop, at any in-range cursor
position: a blank (whitespace-only) line is skipped, advancing the cursor
by one with no record appended; when the first grammar match happens at
window width `k` (the single line for `k = 0`, the line merged with the
next `k` stripped lines joined by single spaces otherwise, `k` at most 5)
the records from that match are kept and the cursor advances by exactly
`k + 1`; when no width up to 5 (within the file) matches, the cursor
advances by exactly one with no record appended. -/
theorem tokenizer_merge_window (lines : List String) (i fuel : Nat)
    (ps : List ProductRecord) (ss : List ServiceRecord) (hi : i < lines.length) :
    (pyStrip (lines.getD i ("")) = ("") →
      extractLoop lines i (fuel + 1) ps ss = extractLoop lines (i + 1) fuel ps ss) ∧
    (∀ (k : Nat) (ps2 : List ProductRecord) (ss2 : List ServiceRecord),
      k < MAX_LINE_MERGE → i + k < lines.length →
      pyStrip (lines.getD i ("")) ≠ ("") →
      (∀ j, j < k → lineMatches (windowText lines i j) = false) →
      try_match_line (windowText lines i k) ps ss = (true, ps2, ss2) →
      extractLoop lines i (fuel + 1) ps ss =
        extractLoop lines (i + k + 1) fuel ps2 ss2) ∧
    ((∀ k, k < MAX_LINE_MERGE → i + k < lines.length →
        lineMatches (windowText lines i k) = false) →
      pyStrip (lines.getD i ("")) ≠ ("") →
      extractLoop lines i (fuel + 1) ps ss = extractLoop lines (i + 1) fuel ps ss) := by
  have hmax : MAX_LINE_MERGE = 6 := rfl
  refine ⟨?_, ?_, ?_⟩
  · intro hblank
    rw [extractLoop_succ, if_pos hi, if_pos hblank]
  · intro k ps2 ss2 hk hik hnb hnom hmatch
    rw [extractLoop_succ, if_pos hi, if_neg hnb]
    rcases Nat.eq_zero_or_pos k with rfl | hkpos
    · rw [windowText_zero] at hmatch
      rw [hmatch]
    · have h0 : lineMatches (pyStrip (lines.getD i (""))) = false := by
        have h1 := hnom 0 hkpos
        rwa [windowText_zero] at h1
      rw [try_match_line_of_not_matches ps ss h0]
      have hfound := tryMerges_found lines i (pyStrip (lines.getD i (""))) ps ps2 ss ss2 k
        (MAX_LINE_MERGE - 1) 1 hkpos (by omega) hik
        (fun j hj1 hj2 => by
          have h2 := hnom j hj2
          rwa [windowText_pos lines i j (by omega)] at h2)
        (by rwa [windowText_pos lines i k hkpos] at hmatch)
      rw [hfound]
  · intro hnom hnb
    rw [extractLoop_succ, if_pos hi, if_neg hnb]
    have h0 : lineMatches (pyStrip (lines.getD i (""))) = false := by
      have h1 := hnom 0 (by omega) (by omega)
      rwa [windowText_zero] at h1
    rw [try_match_line_of_not_matches ps ss h0]
    have hnone := tryMerges_none lines i (pyStrip (lines.getD i (""))) ps ss
      (MAX_LINE_MERGE - 1) 1
      (fun j hj1 hj2 hj3 => by
        have h2 := hnom j (by omega) hj3
        rwa [windowText_pos lines i j (by omega)] at h2)
    rw [hnone]

/-- Witness for C2: a record split across 3 consecutive lines is recovered
at window width 2 and exactly 3 lines are consumed (the cursor moves from
0 to 3), with the single line and the width-1 window matching no grammar. -/
theorem tokenizer_merge_window_witness :
    extractLoop
        [("Product Code: PRD-001"), ("Quantity: 3 units"),
         ("Unit Price: $10.00 Amount: $30.00")] 0 3 [] [] =
      extractLoop
        [("Product Code: PRD-001"), ("Quantity: 3 units"),
         ("Unit Price: $10.00 Amount: $30.00")] 3 2
        [{ product_code := ("PRD-001"), quantity := 3, unit_price := 10,
           total_price := 30 }] [] :=
  (tokenizer_merge_window
      [("Product Code: PRD-001"), ("Quantity: 3 units"),
       ("Unit Price: $10.00 Amount: $30.00")] 0 2 [] [] (by decide)).2.1 2
    [{ product_code := ("PRD-001"), quantity := 3, unit_price := 10,
       total_price := 30 }] []
    (by decide) (by decide) (by decide) (by decide)
    (of_decide_eq_true (by with_unfolding_all rfl))

/-! ## C7: the supplier extractor -/

/-- Counterexample for C7 as stated: on `"ACME INC\nMain Street 1\n..."`
the supplier IS extracted, but its name is the bare token `"INC"`, not the
full uppercase line `"ACME INC"` the claim requires (the regex alternation
`([A-Z\s]+LTD|INC|GMBH)` only attaches the uppercase-run to the `LTD`
alternative). -/
theorem supplier_inc_counterexample :
    extract_supplier_info ("ACME INC\nMain Street 1\nx") =
      some ⟨("INC"), ("Main Street 1")⟩ ∧ (("INC") : String) ≠ ("ACME INC") := by
  constructor
  · decide
  · decide

/-- C7 (amended): the supplier block is extracted exactly when the regex
`([A-Z\s]+LTD|INC|GMBH)\n(.+?)\n` matches: an uppercase/whitespace run
ending in `LTD` followed by a newline yields that run plus `LTD` (trimmed)
as the name — e.g. a line `"ACME LTD"` — but a bare `INC` or `GMBH` before
a newline also matches, yielding the name `"INC"`/`"GMBH"` alone even when
preceded by uppercase words; the address is the (trimmed) text from after
that newline up to the next newline; when the regex does not match, the
supplier is `None`. -/
theorem supplier_regex_behaviour :
    (∀ t : String, supplierSearch t.data = none → extract_supplier_info t = none) ∧
    extract_supplier_info ("ACME LTD\nBaker Street 1\nrest") =
      some ⟨("ACME LTD"), ("Baker Street 1")⟩ ∧
    extract_supplier_info ("GLOBEX INC\nSide Road 2\ntail") =
      some ⟨("INC"), ("Side Road 2")⟩ ∧
    extract_supplier_info ("MEGA GMBH\nAddr 9\nz") = some ⟨("GMBH"), ("Addr 9")⟩ ∧
    extract_supplier_info ("no supplier here") = none := by
  refine ⟨?_, by decide, by decide, by decide, by decide⟩
  intro t h
  unfold extract_supplier_info
  rw [h]

/-- Witness for the amended C7 theorem: a text the supplier regex does not
match yields no supplier. -/
theorem supplier_regex_behaviour_witness :
    extract_supplier_info ("hello") = none :=
  supplier_regex_behaviour.1 ("hello") (by decide)

end InvoiceParser
